import Mathlib

/-!
Shallow embedding of the ika-api relay engine (FastAPI + Discord/Slack
adapters + application gateway) for checking the natural-language spec.

Strings are modelled as lists of characters (`Str`) so that the Python
string operations used by the source (`str.split`, `str.splitlines`,
`re.sub` with the concrete patterns appearing in the code) can be embedded
as structurally recursive functions that are easy to evaluate and reason
about.
-/

abbrev Str := List Char

/-- Embedding of Python `s.split(sep)` for a single-character separator:
the result always has at least one element, empty pieces are kept. -/
def pySplitC (sep : Char) : Str → List Str
  | [] => [[]]
  | c :: rest =>
    match pySplitC sep rest with
    | [] => [[]]
    | h :: t => if c = sep then [] :: h :: t else (c :: h) :: t

/-- Embedding of Python `s.splitlines()` (newline-separated, no trailing
empty piece, empty string gives an empty list); the source only feeds it
text whose line separators are `\n`. -/
def pySplitlines (s : Str) : List Str :=
  if s = [] then []
  else
    let parts := pySplitC '\n' s
    if parts.getLast? = some [] then parts.dropLast else parts

/-- Embedding of Python `s.lower()` on the ASCII channel names the source
compares case-insensitively. -/
def lcStr (s : Str) : Str := s.map Char.toLower

theorem pySplitC_ne_nil (sep : Char) (s : Str) : pySplitC sep s ≠ [] := by
  cases s with
  | nil => simp [pySplitC]
  | cons c rest =>
    simp only [pySplitC]
    cases h : pySplitC sep rest with
    | nil => simp
    | cons h t => by_cases hc : c = sep <;> simp [hc]

theorem pySplitC_no_sep {sep : Char} {s : Str} (h : sep ∉ s) :
    pySplitC sep s = [s] := by
  induction s with
  | nil => rfl
  | cons c rest ih =>
    have hc : c ≠ sep := fun hcs => h (hcs ▸ List.mem_cons_self c rest)
    have hr : sep ∉ rest := fun hm => h (List.mem_cons_of_mem c hm)
    simp only [pySplitC, ih hr]
    simp [hc]

theorem pySplitC_append_sep {sep : Char} {l r : Str} (h : sep ∉ l) :
    pySplitC sep (l ++ sep :: r) = l :: pySplitC sep r := by
  induction l with
  | nil =>
    simp only [List.nil_append, pySplitC]
    cases hr : pySplitC sep r with
    | nil => exact absurd hr (pySplitC_ne_nil sep r)
    | cons a b => simp
  | cons c rest ih =>
    have hc : c ≠ sep := fun hcs => h (hcs ▸ List.mem_cons_self c rest)
    have hrest : sep ∉ rest := fun hm => h (List.mem_cons_of_mem c hm)
    simp only [List.cons_append, pySplitC, List.append_eq]
    rw [ih hrest]
    simp [hc]

/-!
Data model (src/app/db.py): the relay reads/writes the `Channels` and
`ChannelIntegrations` tables and the `Applications` table. Records are
embedded as plain structures and a database as lists of records.
-/

structure ChannelRec where
  id : Nat
  name : Str
deriving DecidableEq, Repr

structure IntegrationRec where
  id : Nat
  channel : Nat
  type : Str
  target : Str
  extra : Str
  is_authorized : Bool
  created_at : Nat
deriving DecidableEq, Repr

structure DB where
  channels : List ChannelRec
  integrations : List IntegrationRec
deriving DecidableEq, Repr

structure AppRec where
  id : Str
  secret_key : Str
  slug : Str
  name : Str
  channels : List Str
deriving DecidableEq, Repr

/-- Payload of a `chat_message` bus event (§6 wire format). -/
structure ChatEvent where
  sender : Str
  recipient : Str
  message : Str
deriving DecidableEq, Repr

/-- Bus events published by the relay (src/app/*: `redis.publish` calls). -/
inductive BusEvent where
  | chat_message (sender recipient message : Str)
  | add_integration (channel : Str) (integrationId : Nat)
  | remove_integration (channel : Str) (integrationId : Nat)
deriving DecidableEq, Repr

def findChannelByName (db : DB) (name : Str) : Option ChannelRec :=
  db.channels.find? (fun c => c.name == name)

def findChannelById (db : DB) (cid : Nat) : Option ChannelRec :=
  db.channels.find? (fun c => c.id == cid)

/-!
Loop-prevention tagging (src/app/integration/discord.py line 99,
src/app/integration/slack.py line 189, src/app/route.py line 87).
The platform adapters publish `sender` as
`<nick>＠<marker>!integration@integrations/<type>/<id>` with marker `d`
(Discord) or `s` (Slack); the gateway publishes
`<sender>+!app@apps/<slug>`.  `＠` is the fullwidth commercial at U+FF20.
-/

def integrationSender (nick : Str) (marker : Char) (ty : Str) (iid : Nat) : Str :=
  nick ++ '＠' :: marker :: '!' :: "integration@integrations/".data ++ ty ++ '/' :: (Nat.repr iid).data

def appSender (sender slug : Str) : Str :=
  sender ++ '+' :: '!' :: "app@apps/".data ++ slug

/-- Echo-suppression check shared by both platform listeners
(discord.py lines 179-182 with marker `d`, slack.py lines 280-283 with
marker `s`): take the part of `sender` before the first `!`, split it on
the fullwidth `＠`; drop the event when that yields exactly two parts and
the second is the adapter's own marker. -/
def listenerEchoDrop (marker : Char) (sender : Str) : Bool :=
  let s := (pySplitC '!' sender).headI
  let parts := pySplitC '＠' s
  parts.length == 2 && parts.getD 1 [] == [marker]

/-- Embedding of src/app/util.py `is_acceptable_character`. -/
def is_acceptable_character (c : Char) : Bool :=
  (65 ≤ c.toNat && c.toNat ≤ 90) || (97 ≤ c.toNat && c.toNat ≤ 122) ||
  (48 ≤ c.toNat && c.toNat ≤ 57) || (44032 ≤ c.toNat && c.toNat ≤ 55203) ||
  (c == '_' || c == '-' || c == '.')

/-- Embedding of src/app/util.py `sanitize_nickname`. -/
def sanitize_nickname (nickname : Str) : Str :=
  (nickname.filter is_acceptable_character).take 16

/-!
Outbound fan-out of `chat_message` events: which integrations receive a
bus event.  Embeds the query part of the two `redis_listener`s
(discord.py lines 178-194, slack.py lines 279-298): after the echo-drop
check, the recipient channel is looked up by name and the event goes to
every authorized integration of the adapter's own type bound to it.
-/

def discordChatTargets (db : DB) (ev : ChatEvent) : List IntegrationRec :=
  if listenerEchoDrop 'd' ev.sender then []
  else
    match findChannelByName db ev.recipient with
    | none => []
    | some ch =>
      db.integrations.filter
        (fun i => i.type == "discord".data && i.channel == ch.id && i.is_authorized)

def slackChatTargets (db : DB) (ev : ChatEvent) : List IntegrationRec :=
  if listenerEchoDrop 's' ev.sender then []
  else
    match findChannelByName db ev.recipient with
    | none => []
    | some ch =>
      db.integrations.filter
        (fun i => i.type == "slack".data && i.channel == ch.id && i.is_authorized)

/-!
Inbound line relay (discord.py `on_message` lines 83-102, slack.py
`handle_events` lines 173-192, identical in both adapters): after
normalization the text is split into lines; if there are more than 5
lines the whole text is stored as a Snippet and the line list is replaced
by the single retrieval URL; one `chat_message` is published per
remaining non-empty line.
-/

def snippetURL (snippetId : Nat) : Str :=
  "https://api.ozinger.org/snippets/".data ++ (Nat.repr snippetId).data

/-- Lines actually published for a normalized text (`snippetId` stands for
the id the Snippet row would get when stored). -/
def relayLines (content : Str) (snippetId : Nat) : List Str :=
  let lines := pySplitlines content
  let lines := if lines.length > 5 then [snippetURL snippetId] else lines
  lines.filter (fun l => !l.isEmpty)

/-- Whether the Snippet branch is taken for a normalized text. -/
def relayStoresSnippet (content : Str) : Bool :=
  (pySplitlines content).length > 5

/-- The published `chat_message` events themselves (one per relayed line,
with the sender tag of the producing integration). -/
def relayEvents (nick : Str) (marker : Char) (integ : IntegrationRec)
    (recipient : Str) (content : Str) (snippetId : Nat) : List BusEvent :=
  (relayLines content snippetId).map
    (fun l => .chat_message (integrationSender nick marker integ.type integ.id) recipient l)

/-!
Attach commands.  discord.py `add_integration` (lines 105-143) and the
`attach` branch of slack.py `handle_command` (lines 216-250).  External
side effects (webhook creation, autoincremented row id, current time) are
passed in as parameters.
-/

inductive CmdReply where
  /-- "이 채널에는 이미 연동이 등록되어 있습니다." -/
  | alreadyBound
  /-- "오징어 IRC 네트워크에 `…` 채널이 등록되어 있지 않습니다." -/
  | unknownChannel
  /-- "오징어 IRC 네트워크의 `…` 채널에 연동을 요청했습니다." -/
  | requested
  /-- "앱을 채널에 먼저 설치해주세요." (Slack only) -/
  | notInstalled
  /-- "이 채널은 오징어 IRC 네트워크 채널과 연동되어 있지 않습니다." -/
  | notBound
  /-- "오징어 IRC 네트워크 `…` 채널과의 연동이 해제되었습니다." -/
  | detached
deriving DecidableEq, Repr

structure AttachOutcome where
  db : DB
  published : List BusEvent
  reply : CmdReply
deriving DecidableEq, Repr

def discordAddIntegration (db : DB) (discordChannelId : Nat) (ircChannelName : Str)
    (webhookId : Nat) (now newId : Nat) : AttachOutcome :=
  if db.integrations.any
      (fun i => i.type == "discord".data && i.target == (Nat.repr discordChannelId).data) then
    ⟨db, [], .alreadyBound⟩
  else
    match findChannelByName db ircChannelName with
    | none => ⟨db, [], .unknownChannel⟩
    | some ch =>
      let integ : IntegrationRec :=
        ⟨newId, ch.id, "discord".data, (Nat.repr discordChannelId).data,
          (Nat.repr webhookId).data, false, now⟩
      ⟨⟨db.channels, db.integrations ++ [integ]⟩,
        [.add_integration ircChannelName newId], .requested⟩

def slackAttach (db : DB) (botInChannel : Bool) (slackTeamId slackChannelId : Str)
    (ircChannelName : Str) (now newId : Nat) : AttachOutcome :=
  if !botInChannel then ⟨db, [], .notInstalled⟩
  else if db.integrations.any
      (fun i => i.type == "slack".data && i.target == slackChannelId) then
    ⟨db, [], .alreadyBound⟩
  else
    match findChannelByName db ircChannelName with
    | none => ⟨db, [], .unknownChannel⟩
    | some ch =>
      let integ : IntegrationRec :=
        ⟨newId, ch.id, "slack".data, slackChannelId, slackTeamId, false, now⟩
      ⟨⟨db.channels, db.integrations ++ [integ]⟩,
        [.add_integration ircChannelName newId], .requested⟩

/-!
Confirmation handlers for `add_integration` on `from-ika`
(discord.py `redis_listener` lines 226-234, slack.py `redis_listener`
lines 335-349).  Both look the integration up by id, return when the type
is not their own, and send a confirmation notice into the bound platform
channel.  Neither touches the stored record.  A missing record raises
(`integration.type` on `None`), embedded as an error.
-/

inductive PyError where
  | valueError
  | attributeError
deriving DecidableEq, Repr

/-- Notice sent into a platform channel: (platform target, IRC channel
name quoted in the message text). -/
structure PlatformNotice where
  target : Str
  ircChannelName : Str
deriving DecidableEq, Repr

def discordAddIntegrationConfirm (db : DB) (integrationId : Nat) :
    Except PyError (DB × Option PlatformNotice) :=
  match db.integrations.find? (fun i => i.id == integrationId) with
  | none => .error .attributeError
  | some integ =>
    if integ.type ≠ "discord".data then .ok (db, none)
    else
      match findChannelById db integ.channel with
      | none => .error .attributeError
      | some ch => .ok (db, some ⟨integ.target, ch.name⟩)

def slackAddIntegrationConfirm (db : DB) (integrationId : Nat) :
    Except PyError (DB × Option PlatformNotice) :=
  match db.integrations.find? (fun i => i.id == integrationId) with
  | none => .error .attributeError
  | some integ =>
    if integ.type ≠ "slack".data then .ok (db, none)
    else
      match findChannelById db integ.channel with
      | none => .error .attributeError
      | some ch => .ok (db, some ⟨integ.target, ch.name⟩)

/-!
Slack inbound HTTP guard (slack.py `receive_events` lines 64-75,
`receive_command` lines 78-96, `verify_request` lines 119-124).
-/

/-- Modelled from the spec: `slack_sdk.signature.SignatureVerifier.is_valid`
is not part of src/ (it lives in the slack_sdk collaborator); per §4.6 it
recomputes an HMAC over a fixed prefix, the request timestamp and the raw
body, compares it with the provided signature, and additionally rejects
any request whose timestamp is more than 5 minutes from current time.
`signatureMatches` stands for the outcome of the HMAC comparison; times
are seconds. -/
def signatureVerifierIsValid (now ts : Int) (signatureMatches : Bool) : Bool :=
  signatureMatches && ((now - ts).natAbs ≤ 300)

structure HttpOutcome where
  status : Nat
  published : List BusEvent
  db : DB
deriving DecidableEq, Repr

/-- Guard part of `receive_events`: when verification fails the request is
answered 401 and nothing else happens; otherwise processing continues and
may publish events / change state (`processed` stands for whatever the
spawned `handle_events` task does). -/
def slackReceiveEvents (db : DB) (now ts : Int) (signatureMatches : Bool)
    (processed : DB × List BusEvent) : HttpOutcome :=
  if !signatureVerifierIsValid now ts signatureMatches then ⟨401, [], db⟩
  else ⟨200, processed.2, processed.1⟩

/-- Guard part of `receive_command`, same shape as `slackReceiveEvents`. -/
def slackReceiveCommand (db : DB) (now ts : Int) (signatureMatches : Bool)
    (processed : DB × List BusEvent) : HttpOutcome :=
  if !signatureVerifierIsValid now ts signatureMatches then ⟨401, [], db⟩
  else ⟨200, processed.2, processed.1⟩

/-!
Application gateway (src/app/route.py).
-/

/-- Embedding of `get_app` (route.py lines 73-75):
`appid, secret_key = token.split('@')` raises ValueError unless the split
yields exactly two parts; otherwise the Applications table is queried. -/
def get_app (apps : List AppRec) (token : Str) : Except PyError (Option AppRec) :=
  match pySplitC '@' token with
  | [appid, secret_key] =>
    .ok (apps.find? (fun a => a.id == appid && a.secret_key == secret_key))
  | _ => .error .valueError

/-- Result codes sent back to gateway/HTTP clients (§6 protocol). -/
inductive GatewayCode where
  | sent
  | unauthorized_channel
  | invalid_token
  | authenticated (name slug : Str) (channels : List Str)
deriving DecidableEq, Repr

/-- Embedding of `send_message` (route.py lines 78-93): if some channel of
the application matches `target` case-insensitively, the tagged event is
published on both `to-ika` and `from-ika`; otherwise nothing is published. -/
def send_message (app : AppRec) (sender target message : Str) :
    List (Str × ChatEvent) × GatewayCode :=
  if app.channels.any (fun ch => lcStr ch == lcStr target) then
    let ev : ChatEvent := ⟨appSender sender app.slug, target, message⟩
    ([("to-ika".data, ev), ("from-ika".data, ev)], .sent)
  else ([], .unauthorized_channel)

/-- Embedding of `post_chat` (route.py lines 34-40): a ValueError from
`get_app` propagates; a well-formed token with no matching record yields
`invalid_token`; otherwise `send_message` runs. -/
def post_chat (apps : List AppRec) (token : Str) (sender target message : Str) :
    Except PyError (List (Str × ChatEvent) × GatewayCode) :=
  match get_app apps token with
  | .error e => .error e
  | .ok none => .ok ([], .invalid_token)
  | .ok (some app) => .ok (send_message app sender target message)

/-- Embedding of the `authenticate` action of `websocket_chat`
(route.py lines 50-61): same `get_app` call, on success the connection
binds the application and the lowercased channel list. -/
def ws_authenticate (apps : List AppRec) (token : Str) :
    Except PyError (GatewayCode × Option (AppRec × List Str)) :=
  match get_app apps token with
  | .error e => .error e
  | .ok none => .ok (.invalid_token, none)
  | .ok (some app) =>
    let chans := app.channels.map lcStr
    .ok (.authenticated app.name app.slug chans, some (app, chans))

/-- State of one gateway websocket connection as the listener sees it
(`ws.state.app` set after a successful authenticate, `ws.state.channels`
the lowercased channel names). -/
structure WsConn where
  app : Option AppRec
  channels : List Str
deriving DecidableEq, Repr

structure GatewayPayload where
  origin : Str
  sender : Str
  target : Str
  message : Str
deriving DecidableEq, Repr

/-- Embedding of route.py `redis_listener` (lines 96-119) for a
`chat_message` event: origin/sender are decoded from the tag, then the
payload is sent to every connection that has authenticated, whose
application slug differs from the origin, and whose channel list contains
the lowercased recipient.  The result pairs each delivered connection's
index with its payload. -/
def strStartsWith : Str → Str → Bool
  | [], _ => true
  | _ :: _, [] => false
  | a :: as, b :: bs => a == b && strStartsWith as bs

/-- Embedding of Python `needle in hay` on strings. -/
def strContains (needle : Str) : Str → Bool
  | [] => strStartsWith needle []
  | c :: rest => strStartsWith needle (c :: rest) || strContains needle rest

/-- Origin decoded from an event's sender tag (route.py lines 98-103):
the application slug for app-tagged senders, the wildcard for everything
else. -/
def chatOrigin (sender : Str) : Str :=
  if strContains ("app@apps/".data) sender then (pySplitC '/' sender).getD 1 []
  else "*".data

/-- Display sender decoded from an event's sender tag (route.py lines
98-103). -/
def chatDisplaySender (sender : Str) : Str :=
  if strContains ("app@apps/".data) sender then (pySplitC '+' sender).headI
  else (pySplitC '!' sender).headI

/-- Delivery rule for one websocket connection (body of the loop in
route.py lines 105-119): skipped when not authenticated, when the
connection's application is the event's origin, or when the lowercased
recipient is not among the connection's channels. -/
def gatewayDeliver (ev : ChatEvent) (conn : WsConn) : Option GatewayPayload :=
  match conn.app with
  | none => none
  | some app =>
    if app.slug == chatOrigin ev.sender then none
    else if conn.channels.contains (lcStr ev.recipient) then
      some ⟨chatOrigin ev.sender, chatDisplaySender ev.sender, ev.recipient, ev.message⟩
    else none

def routeRedisListener (conns : List WsConn) (ev : ChatEvent) :
    List (Nat × GatewayPayload) :=
  conns.enum.filterMap (fun p => (gatewayDeliver ev p.2).map (fun pl => (p.1, pl)))

/-!
Bus subscription loop (src/app/redis.py `redis_subscribe`, lines 14-30).
Each cycle either sees no message (the idle/timeout case, handled by
`except asyncio.TimeoutError: pass`), or a message whose payload parses
as JSON (each registered listener gets a task; the bare `except` around
`create_task` swallows scheduling errors), or a message whose payload is
not valid JSON — then `json.loads` raises and nothing in the loop catches
it, so the coroutine terminates.  A cycle is embedded as
`none` (no message) / `some none` (message, parse fails) /
`some (some d)` (message, parsed payload `d`); the run returns the
payloads delivered to the listener list and whether the loop is still
alive afterwards.
-/

def redisSubscribeRun (listeners : List Nat) :
    List (Option (Option Nat)) → List (Nat × List Nat) × Bool
  | [] => ([], true)
  | none :: rest => redisSubscribeRun listeners rest
  | some none :: _ => ([], false)
  | some (some d) :: rest =>
    let r := redisSubscribeRun listeners rest
    ((d, listeners) :: r.1, r.2)

/-!
Embedding of `re.sub(r'<(.+?)(\|.+)?>', r'\1', content)` (slack.py line
166).  Python's engine scans left to right; at each `<` it tries the lazy
group 1 one character at a time (`.` never matches a newline); for a
fixed group 1 it first tries the optional group 2 `\|.+` with a greedy
`.+` (so the closing `>` is the rightmost one on the line), then a bare
`>`; the whole match is replaced by group 1.
-/

/-- Rightmost index of a closing angle bracket in a character list. -/
def lastGt : Str → Option Nat
  | [] => none
  | c :: t =>
    match lastGt t with
    | some n => some (n + 1)
    | none => if c = '>' then some 0 else none

/-- Rightmost index `n ≥ 1` of a closing angle bracket (the greedy `.+`
of group 2 needs at least one character before the bracket). -/
def lastGtIdx (l : Str) : Option Nat :=
  match lastGt l with
  | some n => if 1 ≤ n then some n else none
  | none => none

/-- Matching engine for `<(.+?)(\|.+)?>` positioned just after an opening
bracket: `acc` is group 1 accumulated so far; on success returns group 1
and the remainder of the input after the match. -/
def matchGo (acc : Str) : Str → Option (Str × Str)
  | [] => none
  | [_] => none
  | c :: d :: u =>
    if c = '\n' then none
    else if d = '|' then
      match lastGtIdx (u.takeWhile (fun x => x != '\n')) with
      | some n => some (acc ++ [c], u.drop (n + 1))
      | none => matchGo (acc ++ [c]) (d :: u)
    else if d = '>' then some (acc ++ [c], u)
    else matchGo (acc ++ [c]) (d :: u)

theorem matchGo_cons2 (acc : Str) (c d : Char) (u : Str) :
    matchGo acc (c :: d :: u) =
      if c = '\n' then none
      else if d = '|' then
        match lastGtIdx (u.takeWhile (fun x => x != '\n')) with
        | some n => some (acc ++ [c], u.drop (n + 1))
        | none => matchGo (acc ++ [c]) (d :: u)
      else if d = '>' then some (acc ++ [c], u)
      else matchGo (acc ++ [c]) (d :: u) := rfl

theorem matchGo_length : ∀ (s acc g r : Str), matchGo acc s = some (g, r) →
    r.length < s.length := by
  intro s
  induction s with
  | nil => intro acc g r h; simp [matchGo] at h
  | cons c t ih =>
    intro acc g r h
    cases t with
    | nil => simp [matchGo] at h
    | cons d u =>
      rw [matchGo_cons2] at h
      by_cases hc : c = '\n'
      · rw [if_pos hc] at h; exact absurd h (by simp)
      · rw [if_neg hc] at h
        by_cases hd : d = '|'
        · rw [if_pos hd] at h
          rcases hn : lastGtIdx (u.takeWhile (fun x => x != '\n')) with _ | n
          · rw [hn] at h
            exact Nat.lt_trans (ih (acc ++ [c]) g r h) (Nat.lt_succ_self _)
          · rw [hn] at h
            have hr : r = u.drop (n + 1) := by
              have := h
              simp only [Option.some.injEq, Prod.mk.injEq] at this
              exact this.2.symm
            have hle : r.length ≤ u.length := by rw [hr]; simp
            calc r.length ≤ u.length := hle
              _ < (d :: u).length := Nat.lt_succ_self _
              _ < (c :: d :: u).length := Nat.lt_succ_self _
        · rw [if_neg hd] at h
          by_cases hgt : d = '>'
          · rw [if_pos hgt] at h
            have hr : r = u := by
              simp only [Option.some.injEq, Prod.mk.injEq] at h
              exact h.2.symm
            subst hr
            calc r.length < (d :: r).length := Nat.lt_succ_self _
              _ < (c :: d :: r).length := Nat.lt_succ_self _
          · rw [if_neg hgt] at h
            exact Nat.lt_trans (ih (acc ++ [c]) g r h) (Nat.lt_succ_self _)

/-- Fuel-indexed scanner of the substitution: processes the string left to
right, replacing each non-overlapping match by its group 1; fuel bounds
the recursion and any fuel at least the input length is enough. -/
def slackLinkSubF : Nat → Str → Str
  | 0, s => s
  | _ + 1, [] => []
  | fuel + 1, c :: rest =>
    if c = '<' then
      match matchGo [] rest with
      | some (g1, rest2) => g1 ++ slackLinkSubF fuel rest2
      | none => c :: slackLinkSubF fuel rest
    else c :: slackLinkSubF fuel rest

/-- Embedding of the whole `re.sub(r'<(.+?)(\|.+)?>', r'\1', content)`. -/
def slackLinkSub (content : Str) : Str := slackLinkSubF content.length content

theorem slackLinkSubF_fuel : ∀ (f f2 : Nat) (s : Str), s.length ≤ f →
    s.length ≤ f2 → slackLinkSubF f s = slackLinkSubF f2 s := by
  intro f
  induction f with
  | zero =>
    intro f2 s hs _
    have : s = [] := List.length_eq_zero.mp (Nat.le_zero.mp hs)
    subst this
    cases f2 <;> rfl
  | succ f ih =>
    intro f2 s hs hs2
    cases s with
    | nil => cases f2 <;> rfl
    | cons c rest =>
      cases f2 with
      | zero => exact absurd hs2 (by simp)
      | succ f2 =>
        have hrest : rest.length ≤ f := by simpa using hs
        have hrest2 : rest.length ≤ f2 := by simpa using hs2
        by_cases hc : c = '<'
        · rcases hm : matchGo [] rest with _ | ⟨g1, rest2⟩
          · simp only [slackLinkSubF, if_pos hc, hm]
            rw [ih f2 rest hrest hrest2]
          · have hlt : rest2.length < rest.length := matchGo_length rest [] g1 rest2 hm
            simp only [slackLinkSubF, if_pos hc, hm]
            rw [ih f2 rest2 (Nat.le_of_lt (Nat.lt_of_lt_of_le hlt hrest))
              (Nat.le_of_lt (Nat.lt_of_lt_of_le hlt hrest2))]
        · simp only [slackLinkSubF, if_neg hc]
          rw [ih f2 rest hrest hrest2]

theorem slackLinkSub_nil : slackLinkSub [] = [] := rfl

theorem slackLinkSub_cons_ne {c : Char} (rest : Str) (hc : c ≠ '<') :
    slackLinkSub (c :: rest) = c :: slackLinkSub rest := by
  simp only [slackLinkSub, List.length_cons, slackLinkSubF, if_neg hc]

theorem slackLinkSub_match {rest g1 rest2 : Str}
    (h : matchGo [] rest = some (g1, rest2)) :
    slackLinkSub ('<' :: rest) = g1 ++ slackLinkSub rest2 := by
  have hlt : rest2.length < rest.length := matchGo_length rest [] g1 rest2 h
  simp only [slackLinkSub, List.length_cons, slackLinkSubF, h,
    eq_self_iff_true, if_true]
  rw [slackLinkSubF_fuel rest.length rest2.length rest2 (Nat.le_of_lt hlt)
    (Nat.le_refl _)]

theorem lastGt_of_not_mem {l : Str} (h : '>' ∉ l) : lastGt l = none := by
  induction l with
  | nil => rfl
  | cons c t ih =>
    have hc : c ≠ '>' := fun hcs => h (hcs ▸ List.mem_cons_self c t)
    have ht : '>' ∉ t := fun hm => h (List.mem_cons_of_mem c hm)
    simp [lastGt, ih ht, hc]

theorem lastGt_append {ys zs : Str} (hz : '>' ∉ zs) :
    lastGt (ys ++ '>' :: zs) = some ys.length := by
  induction ys with
  | nil => simp [lastGt, lastGt_of_not_mem hz]
  | cons y ys ih => simp [lastGt, ih]

theorem takeWhile_append_all {p : Char → Bool} {l r : Str}
    (h : ∀ c ∈ l, p c = true) :
    (l ++ r).takeWhile p = l ++ r.takeWhile p := by
  induction l with
  | nil => rfl
  | cons c t ih =>
    have hc : p c = true := h c (List.mem_cons_self c t)
    have ht : ∀ x ∈ t, p x = true := fun x hx => h x (List.mem_cons_of_mem c hx)
    simp [List.takeWhile, hc, ih ht]

theorem drop_length_append (l r : Str) : (l ++ r).drop l.length = r := by
  induction l with
  | nil => rfl
  | cons c t ih => simp

theorem mem_of_mem_takeWhile {p : Char → Bool} {l : Str} {c : Char}
    (h : c ∈ l.takeWhile p) : c ∈ l := by
  induction l with
  | nil => simp at h
  | cons a t ih =>
    by_cases hp : p a
    · rw [List.takeWhile_cons_of_pos hp] at h
      rcases List.mem_cons.mp h with h1 | h2
      · exact h1 ▸ List.mem_cons_self a t
      · exact List.mem_cons_of_mem a (ih h2)
    · rw [List.takeWhile_cons_of_neg hp] at h
      simp at h

/-- On an input of the shape `url ++ '|' ++ label ++ '>' ++ post` (group 1
chars none of newline/pipe/bracket, label chars no newline and no closing
bracket before the real one, no closing bracket later on the same line of
`post`), the matcher takes the whole url as group 1 and resumes after the
bracket. -/
theorem matchGo_full {xs ys zs : Str} (hxs : xs ≠ [])
    (hx : ∀ c ∈ xs, c ≠ '\n' ∧ c ≠ '|' ∧ c ≠ '>')
    (hys : ys ≠ []) (hy : ∀ c ∈ ys, c ≠ '\n') (hygt : '>' ∉ ys)
    (hz : '>' ∉ zs) :
    ∀ acc, matchGo acc (xs ++ '|' :: ys ++ '>' :: zs) = some (acc ++ xs, zs) := by
  induction xs with
  | nil => exact absurd rfl hxs
  | cons x xs ih =>
    intro acc
    have hxc := hx x (List.mem_cons_self x xs)
    cases xs with
    | nil =>
      have htw : (ys ++ '>' :: zs).takeWhile (fun c => c != '\n') =
          ys ++ '>' :: zs.takeWhile (fun c => c != '\n') := by
        rw [takeWhile_append_all (fun c hc => by simp [hy c hc])]
        simp [List.takeWhile]
      have hzs : '>' ∉ zs.takeWhile (fun c => c != '\n') :=
        fun hm => hz (mem_of_mem_takeWhile hm)
      have hgt : lastGt (ys ++ '>' :: zs.takeWhile (fun c => c != '\n')) =
          some ys.length := lastGt_append hzs
      have hlen : 1 ≤ ys.length := by
        cases ys with
        | nil => exact absurd rfl hys
        | cons a b => simp
      have hdrop : (ys ++ '>' :: zs).drop (ys.length + 1) = zs := by
        have h1 : ys ++ '>' :: zs = (ys ++ ['>']) ++ zs := by simp
        rw [h1, show ys.length + 1 = (ys ++ ['>']).length by simp]
        exact drop_length_append _ _
      show matchGo acc (x :: '|' :: (ys ++ '>' :: zs)) = some (acc ++ [x], zs)
      rw [matchGo_cons2, if_neg hxc.1, if_pos rfl, htw]
      simp only [lastGtIdx, hgt, if_pos hlen]
      rw [hdrop]
    | cons x2 xs2 =>
      have hx2 := hx x2 (List.mem_cons_of_mem x (List.mem_cons_self x2 xs2))
      have ihx : ∀ c ∈ x2 :: xs2, c ≠ '\n' ∧ c ≠ '|' ∧ c ≠ '>' :=
        fun c hc => hx c (List.mem_cons_of_mem x hc)
      have step := ih (by simp) ihx (acc ++ [x])
      simp only [List.cons_append] at step ⊢
      rw [matchGo_cons2, if_neg hxc.1, if_neg hx2.2.1, if_neg hx2.2.2, step]
      simp

theorem slackLinkSub_append_no_lt {pre s : Str} (h : '<' ∉ pre) :
    slackLinkSub (pre ++ s) = pre ++ slackLinkSub s := by
  induction pre with
  | nil => rfl
  | cons c t ih =>
    have hc : c ≠ '<' := fun hcs => h (hcs ▸ List.mem_cons_self c t)
    have ht : '<' ∉ t := fun hm => h (List.mem_cons_of_mem c hm)
    rw [List.cons_append, slackLinkSub_cons_ne _ hc, ih ht, List.cons_append]

theorem slackLinkSub_id_no_lt {s : Str} (h : '<' ∉ s) : slackLinkSub s = s := by
  have h2 := @slackLinkSub_append_no_lt s [] h
  simpa [slackLinkSub_nil] using h2

/-- Full behaviour of the substitution on one wrapped link: everything
before the marker is kept, the match is replaced by the part before the
pipe, and scanning resumes after the closing bracket. -/
theorem slackLinkSub_wrap {pre url label post : Str}
    (hpre : '<' ∉ pre)
    (hurl : url ≠ []) (hu : ∀ c ∈ url, c ≠ '\n' ∧ c ≠ '|' ∧ c ≠ '>')
    (hlabel : label ≠ []) (hl : ∀ c ∈ label, c ≠ '\n') (hlgt : '>' ∉ label)
    (hpost : '>' ∉ post) :
    slackLinkSub (pre ++ ('<' :: (url ++ '|' :: label ++ '>' :: post))) =
      pre ++ url ++ slackLinkSub post := by
  have h1 := @slackLinkSub_append_no_lt pre ('<' :: (url ++ '|' :: label ++ '>' :: post)) hpre
  rw [h1]
  have hm := matchGo_full hurl hu hlabel hl hlgt hpost []
  rw [slackLinkSub_match hm]
  simp

/-!
Embedding of the outbound mention substitutions.

Discord (discord.py lines 204-210):
`re.sub(re.escape(member.display_name) + r'[:, ]', f'<@!{member.id}>', content)`
— a case-sensitive *substring* match of the display name followed by one
of `:`/`,`/space anywhere in the text, with no left boundary.

Slack (slack.py lines 313-321):
`re.sub(r'(^| )' + re.escape(name) + r'[:, ]', f'<@{member["id"]}>', content)`
— additionally anchored on the left at start-of-string or a literal
space, which is part of the match and therefore consumed by the
replacement.
-/

def mentionPunct (c : Char) : Bool := c == ':' || c == ',' || c == ' '

/-- Try to match `name` followed by one of `:`/`,`/space at the head of
`s`; on success return the remainder after the match. -/
def matchNamePunct (name : Str) (s : Str) : Option Str :=
  if strStartsWith name s then
    match s.drop name.length with
    | p :: rest => if mentionPunct p then some rest else none
    | [] => none
  else none

theorem matchNamePunct_length {name s r : Str} (h : matchNamePunct name s = some r) :
    r.length < s.length := by
  unfold matchNamePunct at h
  split at h
  · split at h
    · rename_i p rest hd
      split at h
      · have hr := Option.some.inj h
        rw [← hr]
        have hld := congrArg List.length hd
        rw [List.length_drop] at hld
        simp at hld
        omega
      · exact absurd h (by simp)
    · exact absurd h (by simp)
  · exact absurd h (by simp)

def discordMentionSubF : Nat → Str → Str → Str → Str
  | 0, _, _, s => s
  | _ + 1, _, _, [] => []
  | fuel + 1, name, repl, c :: rest =>
    match matchNamePunct name (c :: rest) with
    | some rest2 => repl ++ discordMentionSubF fuel name repl rest2
    | none => c :: discordMentionSubF fuel name repl rest

/-- Embedding of the Discord substitution for one member. -/
def discordMentionSub (name repl s : Str) : Str :=
  discordMentionSubF s.length name repl s

def slackMentionGoF : Nat → Str → Str → Str → Str
  | 0, _, _, s => s
  | _ + 1, _, _, [] => []
  | fuel + 1, name, repl, c :: rest =>
    if c = ' ' then
      match matchNamePunct name rest with
      | some rest2 => repl ++ slackMentionGoF fuel name repl rest2
      | none => c :: slackMentionGoF fuel name repl rest
    else c :: slackMentionGoF fuel name repl rest

def slackMentionGo (name repl s : Str) : Str := slackMentionGoF s.length name repl s

/-- Embedding of the Slack substitution for one member: the `^`
alternative of `(^| )` applies only at the very start; every later match
must begin at a literal space, which the replacement consumes. -/
def slackMentionSub (name repl s : Str) : Str :=
  match matchNamePunct name s with
  | some rest2 => repl ++ slackMentionGo name repl rest2
  | none => slackMentionGo name repl s

structure DiscordMember where
  id : Nat
  display_name : Str
deriving DecidableEq, Repr

/-- Discord outbound specialization over the live member list
(discord.py lines 204-210). -/
def discordSpecialize (members : List DiscordMember) (content : Str) : Str :=
  members.foldl
    (fun acc m =>
      discordMentionSub m.display_name
        ("<@!".data ++ (Nat.repr m.id).data ++ ['>']) acc)
    content

structure SlackMember where
  id : Str
  display_name : Str
deriving DecidableEq, Repr

/-- Slack outbound specialization over the team user list
(slack.py lines 313-321); a member with a whitespace-only display name is
skipped by the `if member['profile']['display_name'].strip():` guard. -/
def slackSpecialize (members : List SlackMember) (content : Str) : Str :=
  members.foldl
    (fun acc m =>
      if m.display_name.any (fun c => !c.isWhitespace) then
        slackMentionSub m.display_name ('<' :: '@' :: m.id ++ ['>']) acc
      else acc)
    content

theorem discordMentionSubF_fuel : ∀ (f f2 : Nat) (name repl s : Str),
    s.length ≤ f → s.length ≤ f2 →
    discordMentionSubF f name repl s = discordMentionSubF f2 name repl s := by
  intro f
  induction f with
  | zero =>
    intro f2 name repl s hs _
    have hnil : s = [] := List.length_eq_zero.mp (Nat.le_zero.mp hs)
    subst hnil
    cases f2 <;> rfl
  | succ f ih =>
    intro f2 name repl s hs hs2
    cases s with
    | nil => cases f2 <;> rfl
    | cons c rest =>
      cases f2 with
      | zero => exact absurd hs2 (by simp)
      | succ f2 =>
        have hrest : rest.length ≤ f := by simpa using hs
        have hrest2 : rest.length ≤ f2 := by simpa using hs2
        rcases hm : matchNamePunct name (c :: rest) with _ | rest2
        · simp only [discordMentionSubF, hm]
          rw [ih f2 name repl rest hrest hrest2]
        · have hlt : rest2.length < (c :: rest).length := matchNamePunct_length hm
          simp only [discordMentionSubF, hm]
          rw [ih f2 name repl rest2 (by simp at hlt ⊢; omega) (by simp at hlt ⊢; omega)]

theorem discordMentionSub_nil (name repl : Str) :
    discordMentionSub name repl [] = [] := rfl

theorem discordMentionSub_match {name repl rest2 : Str} {c : Char} {rest : Str}
    (h : matchNamePunct name (c :: rest) = some rest2) :
    discordMentionSub name repl (c :: rest) = repl ++ discordMentionSub name repl rest2 := by
  have hlt : rest2.length < (c :: rest).length := matchNamePunct_length h
  simp only [discordMentionSub, List.length_cons, discordMentionSubF, h]
  rw [discordMentionSubF_fuel rest.length rest2.length name repl rest2
    (by simp at hlt; omega) (Nat.le_refl _)]

theorem discordMentionSub_nomatch {name repl : Str} {c : Char} {rest : Str}
    (h : matchNamePunct name (c :: rest) = none) :
    discordMentionSub name repl (c :: rest) = c :: discordMentionSub name repl rest := by
  simp only [discordMentionSub, List.length_cons, discordMentionSubF, h]

theorem slackMentionGoF_fuel : ∀ (f f2 : Nat) (name repl s : Str),
    s.length ≤ f → s.length ≤ f2 →
    slackMentionGoF f name repl s = slackMentionGoF f2 name repl s := by
  intro f
  induction f with
  | zero =>
    intro f2 name repl s hs _
    have hnil : s = [] := List.length_eq_zero.mp (Nat.le_zero.mp hs)
    subst hnil
    cases f2 <;> rfl
  | succ f ih =>
    intro f2 name repl s hs hs2
    cases s with
    | nil => cases f2 <;> rfl
    | cons c rest =>
      cases f2 with
      | zero => exact absurd hs2 (by simp)
      | succ f2 =>
        have hrest : rest.length ≤ f := by simpa using hs
        have hrest2 : rest.length ≤ f2 := by simpa using hs2
        by_cases hc : c = ' '
        · rcases hm : matchNamePunct name rest with _ | rest2
          · simp only [slackMentionGoF, if_pos hc, hm]
            rw [ih f2 name repl rest hrest hrest2]
          · have hlt : rest2.length < rest.length := matchNamePunct_length hm
            simp only [slackMentionGoF, if_pos hc, hm]
            rw [ih f2 name repl rest2 (by omega) (by omega)]
        · simp only [slackMentionGoF, if_neg hc]
          rw [ih f2 name repl rest hrest hrest2]

theorem slackMentionGo_nil (name repl : Str) : slackMentionGo name repl [] = [] := rfl

theorem slackMentionGo_space_match {name repl rest rest2 : Str}
    (h : matchNamePunct name rest = some rest2) :
    slackMentionGo name repl (' ' :: rest) = repl ++ slackMentionGo name repl rest2 := by
  have hlt : rest2.length < rest.length := matchNamePunct_length h
  simp only [slackMentionGo, List.length_cons, slackMentionGoF, h,
    eq_self_iff_true, if_true]
  rw [slackMentionGoF_fuel rest.length rest2.length name repl rest2 (by omega)
    (Nat.le_refl _)]

theorem slackMentionGo_space_nomatch {name repl rest : Str}
    (h : matchNamePunct name rest = none) :
    slackMentionGo name repl (' ' :: rest) = ' ' :: slackMentionGo name repl rest := by
  simp only [slackMentionGo, List.length_cons, slackMentionGoF, h,
    eq_self_iff_true, if_true]

theorem slackMentionGo_cons_ne {name repl rest : Str} {c : Char} (hc : c ≠ ' ') :
    slackMentionGo name repl (c :: rest) = c :: slackMentionGo name repl rest := by
  simp only [slackMentionGo, List.length_cons, slackMentionGoF, if_neg hc]

theorem strStartsWith_self_append (l r : Str) : strStartsWith l (l ++ r) = true := by
  induction l with
  | nil => rfl
  | cons a as ih => simp [strStartsWith, ih]

/-- The pattern `name[:, ]` matches at the start of `name ++ p :: post`
whenever `p` is one of the three punctuation characters, and the whole
match (name and punctuation) is consumed. -/
theorem matchNamePunct_head {name post : Str} {p : Char} (hp : mentionPunct p = true) :
    matchNamePunct name (name ++ p :: post) = some post := by
  unfold matchNamePunct
  rw [if_pos (strStartsWith_self_append name (p :: post))]
  rw [drop_length_append]
  simp [hp]

/-- Scanning passes over a region in which no match starts. -/
theorem discordMentionSub_append_no_match {name repl pre s : Str}
    (h : ∀ i < pre.length, matchNamePunct name ((pre ++ s).drop i) = none) :
    discordMentionSub name repl (pre ++ s) = pre ++ discordMentionSub name repl s := by
  induction pre with
  | nil => rfl
  | cons c t ih =>
    have h0 := h 0 (by simp)
    simp only [List.drop_zero, List.cons_append] at h0
    rw [List.cons_append, discordMentionSub_nomatch h0]
    rw [ih (fun i hi => by
      have hstep := h (i + 1) (by simpa using Nat.succ_lt_succ hi)
      simpa using hstep)]
    simp

/-- A sender tag built by a platform adapter is recognized by the
echo-drop check of marker `m` exactly when `m` is the producing adapter's
own marker (the nickname placed in front of the tag has been sanitized
and so contains neither `!` nor `＠`). -/
theorem listenerEchoDrop_integrationSender {n : Str} {marker m : Char} {ty : Str}
    {iid : Nat} (hbang : '!' ∉ n) (hfw : '＠' ∉ n)
    (hm1 : marker ≠ '!') (hm2 : marker ≠ '＠') :
    listenerEchoDrop m (integrationSender n marker ty iid) = (marker == m) := by
  have e : integrationSender n marker ty iid =
      (n ++ ['＠', marker]) ++ '!' ::
        ("integration@integrations/".data ++ (ty ++ '/' :: (Nat.repr iid).data)) := by
    simp [integrationSender]
  have hnb : '!' ∉ (n ++ ['＠', marker]) := by
    intro hmem
    rcases List.mem_append.mp hmem with h1 | h2
    · exact hbang h1
    · rcases List.mem_cons.mp h2 with h3 | h4
      · exact absurd h3 (by decide)
      · have hx : '!' = marker := by simpa using h4
        exact hm1 hx.symm
  have hfwm : '＠' ∉ [marker] := by
    intro hmem
    have hx : '＠' = marker := by simpa using hmem
    exact hm2 hx.symm
  rw [e]
  unfold listenerEchoDrop
  rw [pySplitC_append_sep hnb]
  simp only [List.headI]
  rw [show (n ++ ['＠', marker] : Str) = n ++ '＠' :: [marker] from rfl,
    pySplitC_append_sep hfw, pySplitC_no_sep hfwm]
  by_cases hmm : marker = m
  · simp [hmm]
  · simp [hmm]

theorem strContains_append_self (pre n post : Str) :
    strContains n (pre ++ (n ++ post)) = true := by
  induction pre with
  | nil =>
    cases n with
    | nil =>
      cases post with
      | nil => rfl
      | cons p ps => simp [strContains, strStartsWith]
    | cons a as =>
      simp only [List.nil_append, List.cons_append, strContains, List.append_eq]
      have hsw : strStartsWith (a :: as) (a :: (as ++ post)) = true := by
        simpa using strStartsWith_self_append (a :: as) post
      rw [hsw]
      simp
  | cons c t ih => simp [strContains, ih]

/-- The gateway sender tag decodes back to the application's slug as its
origin (route.py line 100), provided neither the free-form sender text
nor the slug contains a slash. -/
theorem chatOrigin_appSender {sender slug : Str}
    (hs : '/' ∉ sender) (hg : '/' ∉ slug) :
    chatOrigin (appSender sender slug) = slug := by
  have e : appSender sender slug =
      (sender ++ "+!app@apps".data) ++ '/' :: slug := by
    simp [appSender]
  have econtains : strContains ("app@apps/".data) (appSender sender slug) = true := by
    have e2 : appSender sender slug =
        (sender ++ ['+', '!']) ++ ("app@apps/".data ++ slug) := by
      simp [appSender]
    rw [e2]
    exact strContains_append_self _ _ _
  have hns : '/' ∉ (sender ++ "+!app@apps".data) := by
    intro hmem
    rcases List.mem_append.mp hmem with h1 | h2
    · exact hs h1
    · revert h2; decide
  unfold chatOrigin
  rw [econtains, if_pos rfl, e, pySplitC_append_sep hns, pySplitC_no_sep hg]
  rfl

/-!
Claim theorems.
-/

/-- C2: for every inbound platform message, a normalized text of at most
5 lines is relayed verbatim — each non-empty line becomes exactly one
published message — while a text of 6 or more lines takes the Snippet
branch and exactly one message is published, the single
snippet-retrieval-URL line. -/
theorem C2_line_relay (content : Str) (snippetId : Nat) :
    ((pySplitlines content).length ≤ 5 →
      relayStoresSnippet content = false ∧
      relayLines content snippetId =
        (pySplitlines content).filter (fun l => !l.isEmpty)) ∧
    (6 ≤ (pySplitlines content).length →
      relayStoresSnippet content = true ∧
      relayLines content snippetId = [snippetURL snippetId]) := by
  constructor
  · intro h
    have hle : ¬ ((pySplitlines content).length > 5) := by omega
    refine ⟨?_, ?_⟩
    · simp only [relayStoresSnippet, decide_eq_false_iff_not]
      omega
    · simp only [relayLines, if_neg hle]
  · intro h
    have hgt : (pySplitlines content).length > 5 := by omega
    refine ⟨?_, ?_⟩
    · simp only [relayStoresSnippet, decide_eq_true_eq]
      omega
    · simp only [relayLines, if_pos hgt]
      rfl

/-- Witness for C2 at the two boundary inputs: a 5-line text is relayed
verbatim, a 6-line text collapses to the snippet URL. -/
theorem C2_line_relay_witness :
    relayLines "a\nb\n\nd\ne".data 7 = ["a".data, "b".data, "d".data, "e".data] ∧
    relayLines "a\nb\nc\nd\ne\nf".data 7 = [snippetURL 7] := by
  constructor
  · rw [((C2_line_relay "a\nb\n\nd\ne".data 7).1 (by decide)).2]
    decide
  · exact ((C2_line_relay "a\nb\nc\nd\ne\nf".data 7).2 (by decide)).2

/-- C5: every inbound Slack HTTP callback (events or slash-command) whose
signature comparison fails or whose timestamp is more than 5 minutes from
current time is answered 401 before any processing: no bus event is
published and the stored state is unchanged, whatever the processing
would have produced. -/
theorem C5_slack_verification_guard (db : DB) (now ts : Int) (sigMatches : Bool)
    (processed : DB × List BusEvent)
    (h : sigMatches = false ∨ 300 < (now - ts).natAbs) :
    slackReceiveEvents db now ts sigMatches processed = ⟨401, [], db⟩ ∧
    slackReceiveCommand db now ts sigMatches processed = ⟨401, [], db⟩ := by
  have hv : signatureVerifierIsValid now ts sigMatches = false := by
    rcases h with h | h
    · simp [signatureVerifierIsValid, h]
    · unfold signatureVerifierIsValid
      have hd : decide ((now - ts).natAbs ≤ 300) = false := by
        simp
        omega
      rw [hd, Bool.and_false]
  exact ⟨by simp [slackReceiveEvents, hv], by simp [slackReceiveCommand, hv]⟩

/-- Witness for C5: Scenario B of the spec — a timestamp 10 minutes old
with a correct signature is rejected with 401 and nothing is published. -/
theorem C5_witness :
    (true = false ∨ 300 < ((600 : Int) - 0).natAbs) ∧
    slackReceiveEvents ⟨[], []⟩ 600 0 true (⟨[], []⟩, []) = ⟨401, [], ⟨[], []⟩⟩ := by
  have hp : (true = false ∨ 300 < ((600 : Int) - 0).natAbs) := Or.inr (by decide)
  exact ⟨hp, (C5_slack_verification_guard ⟨[], []⟩ 600 0 true (⟨[], []⟩, []) hp).1⟩

/-- C9 counterexample: on the cycle list "valid payload 7, malformed
payload, valid payload 8" the subscription loop delivers 7, then dies on
the malformed payload: 8 is never delivered and the loop is no longer
alive — the claim predicted the malformed payload would be dropped and 8
delivered. -/
theorem C9_counterexample :
    redisSubscribeRun [1] [some (some 7), some none, some (some 8)] =
      ([(7, [1])], false) ∧
    (8, [1]) ∉ (redisSubscribeRun [1] [some (some 7), some none, some (some 8)]).1 := by
  decide

/-- C9 (amended): a payload that is not valid JSON raises out of the
subscription loop (only `asyncio.TimeoutError` is caught there), so the
loop terminates and no subsequent event is delivered; a well-formed
payload is handed to every registered listener and the loop continues; an
idle cycle changes nothing. -/
theorem C9_subscribe_loop (listeners : List Nat)
    (rest : List (Option (Option Nat))) (d : Nat) :
    redisSubscribeRun listeners (some none :: rest) = ([], false) ∧
    redisSubscribeRun listeners (none :: rest) = redisSubscribeRun listeners rest ∧
    redisSubscribeRun listeners (some (some d) :: rest) =
      ((d, listeners) :: (redisSubscribeRun listeners rest).1,
        (redisSubscribeRun listeners rest).2) :=
  ⟨rfl, rfl, rfl⟩

/-- C10: `get_app` unpacks `token.split('@')` into exactly two names, so
a token whose split does not have exactly two parts raises ValueError —
propagated unhandled by both POST /chat and the websocket authenticate
action — while `invalid_token` is produced only for a well-formed token
matching no application record. -/
theorem C10_get_app_token_shape (apps : List AppRec) (token : Str)
    (sender target message : Str) :
    ((pySplitC '@' token).length ≠ 2 →
      get_app apps token = .error .valueError ∧
      post_chat apps token sender target message = .error .valueError ∧
      ws_authenticate apps token = .error .valueError) ∧
    (∀ a b, pySplitC '@' token = [a, b] →
      apps.find? (fun x => x.id == a && x.secret_key == b) = none →
      post_chat apps token sender target message = .ok ([], .invalid_token) ∧
      ws_authenticate apps token = .ok (.invalid_token, none)) := by
  constructor
  · intro h
    have hg : get_app apps token = .error .valueError := by
      unfold get_app
      rcases hsp : pySplitC '@' token with _ | ⟨a, _ | ⟨b, _ | ⟨c, r⟩⟩⟩
      · rfl
      · rfl
      · exact absurd (by rw [hsp]; rfl : (pySplitC '@' token).length = 2) h
      · rfl
    refine ⟨hg, ?_, ?_⟩
    · unfold post_chat; rw [hg]
    · unfold ws_authenticate; rw [hg]
  · intro a b hsp hfind
    have hg : get_app apps token = .ok none := by
      unfold get_app
      rw [hsp]
      simp [hfind]
    exact ⟨by unfold post_chat; rw [hg], by unfold ws_authenticate; rw [hg]⟩

/-- Witness for C10: the token `abc` (no `@`) raises, the well-formed
token `a@b` with an empty application table yields `invalid_token`. -/
theorem C10_witness :
    get_app [] "abc".data = .error .valueError ∧
    post_chat [] "a@b".data "s".data "t".data "m".data = .ok ([], .invalid_token) := by
  constructor
  · exact ((C10_get_app_token_shape [] "abc".data "s".data "t".data "m".data).1
      (by decide)).1
  · exact ((C10_get_app_token_shape [] "a@b".data "s".data "t".data "m".data).2
      "a".data "b".data (by decide) (by decide)).1

/-- Concrete database for the C1 counterexample: two authorized Discord
integrations (ids 1 and 2, different Discord channels) bound to the same
IRC channel `#general`. -/
def dbC1 : DB :=
  ⟨[⟨1, "#general".data⟩],
    [⟨1, 1, "discord".data, "100".data, "900".data, true, 0⟩,
     ⟨2, 1, "discord".data, "200".data, "901".data, true, 0⟩]⟩

/-- C1 counterexample: a chat_message produced by Discord integration 1
reaches no Discord surface at all — in particular integration 2, an
authorized Discord integration on a different platform channel bound to
the same IRC channel, does not receive it, although the claim says every
such surface does. -/
theorem C1_counterexample :
    (⟨2, 1, "discord".data, "200".data, "901".data, true, 0⟩ : IntegrationRec)
        ∈ dbC1.integrations ∧
    discordChatTargets dbC1
      ⟨integrationSender "alice".data 'd' "discord".data 1,
        "#general".data, "hi".data⟩ = [] := by
  decide

/-- C1 (amended): the echo-drop marker is per platform, not per
integration.  An event tagged by a Discord integration is recognized by
the Discord listener's check (and not by Slack's), and a listener that
recognizes its own marker delivers to no integration of its platform —
neither the originating one nor any other.  An event the check does not
recognize is delivered to every authorized integration of that platform
bound to the recipient channel. -/
theorem C1_echo_suppression (db : DB) (ev : ChatEvent) (n ty : Str) (iid : Nat)
    (ch : ChannelRec) (hbang : '!' ∉ n) (hfw : '＠' ∉ n) :
    (listenerEchoDrop 'd' ev.sender = true → discordChatTargets db ev = []) ∧
    (listenerEchoDrop 's' ev.sender = true → slackChatTargets db ev = []) ∧
    listenerEchoDrop 'd' (integrationSender n 'd' ty iid) = true ∧
    listenerEchoDrop 's' (integrationSender n 'd' ty iid) = false ∧
    listenerEchoDrop 'd' (integrationSender n 's' ty iid) = false ∧
    listenerEchoDrop 's' (integrationSender n 's' ty iid) = true ∧
    (listenerEchoDrop 'd' ev.sender = false →
      findChannelByName db ev.recipient = some ch →
      discordChatTargets db ev = db.integrations.filter
        (fun i => i.type == "discord".data && i.channel == ch.id && i.is_authorized)) ∧
    (listenerEchoDrop 's' ev.sender = false →
      findChannelByName db ev.recipient = some ch →
      slackChatTargets db ev = db.integrations.filter
        (fun i => i.type == "slack".data && i.channel == ch.id && i.is_authorized)) := by
  refine ⟨?_, ?_, ?_, ?_, ?_, ?_, ?_, ?_⟩
  · intro h; simp [discordChatTargets, h]
  · intro h; simp [slackChatTargets, h]
  · rw [listenerEchoDrop_integrationSender hbang hfw (by decide) (by decide)]; rfl
  · rw [listenerEchoDrop_integrationSender hbang hfw (by decide) (by decide)]; rfl
  · rw [listenerEchoDrop_integrationSender hbang hfw (by decide) (by decide)]; rfl
  · rw [listenerEchoDrop_integrationSender hbang hfw (by decide) (by decide)]; rfl
  · intro h hc; simp [discordChatTargets, h, hc]
  · intro h hc; simp [slackChatTargets, h, hc]

/-- Witness for C1 (amended) at a concrete sanitized nickname and a
Slack-tagged event delivered to an authorized Slack integration. -/
theorem C1_witness :
    listenerEchoDrop 'd' (integrationSender "alice".data 'd' "discord".data 1) = true ∧
    discordChatTargets dbC1
      ⟨integrationSender "alice".data 'd' "discord".data 1,
        "#general".data, "hi".data⟩ = [] := by
  have h := C1_echo_suppression dbC1
    ⟨integrationSender "alice".data 'd' "discord".data 1, "#general".data, "hi".data⟩
    "alice".data "discord".data 1 ⟨1, "#general".data⟩ (by decide) (by decide)
  exact ⟨h.2.2.1, h.1 (by decide)⟩

/-- Concrete database for C3: one live (authorized) Discord integration
on IRC channel 1, target Discord channel 100. -/
def dbC3 : DB :=
  ⟨[⟨1, "#gen".data⟩], [⟨1, 1, "discord".data, "100".data, "900".data, true, 0⟩]⟩

/-- C3 counterexample: a live Discord integration already owns IRC
channel `#gen`, yet a second Discord attach from a *different* Discord
channel (target 200) to the same IRC channel succeeds: a record is
inserted, an add_integration event is published and the reply is the
success message — the claim requires a DuplicateIntegration rejection
with no insert and no event. -/
theorem C3_counterexample :
    (dbC3.integrations.any
      (fun i => i.type == "discord".data && i.channel == 1 && i.is_authorized)) = true ∧
    discordAddIntegration dbC3 200 "#gen".data 901 5 2 =
      ⟨⟨dbC3.channels,
          dbC3.integrations ++ [⟨2, 1, "discord".data, "200".data, "901".data, false, 5⟩]⟩,
        [.add_integration "#gen".data 2], .requested⟩ := by
  decide

/-- C3 (amended): the attach command rejects with the already-bound
message — inserting nothing and publishing nothing — exactly on a
platform-target collision: whenever an integration of the same type
(authorized or not) already owns the same platform target.  Ownership of
the same IRC channel by a different target is not checked. -/
theorem C3_duplicate_target_only (db : DB) (dcid : Nat) (irc : Str)
    (wh now nid : Nat) (teamId chanId ircS : Str) (nowS nidS : Nat)
    (hD : db.integrations.any
      (fun i => i.type == "discord".data && i.target == (Nat.repr dcid).data) = true)
    (hS : db.integrations.any
      (fun i => i.type == "slack".data && i.target == chanId) = true) :
    discordAddIntegration db dcid irc wh now nid = ⟨db, [], .alreadyBound⟩ ∧
    slackAttach db true teamId chanId ircS nowS nidS = ⟨db, [], .alreadyBound⟩ := by
  constructor
  · simp [discordAddIntegration, hD]
  · simp [slackAttach, hS]

/-- Concrete database for the C3 witness, holding one integration of each
type. -/
def dbC3w : DB :=
  ⟨[⟨1, "#gen".data⟩],
    [⟨1, 1, "discord".data, "100".data, "900".data, true, 0⟩,
     ⟨2, 1, "slack".data, "C1".data, "T1".data, true, 0⟩]⟩

/-- Witness for C3 (amended): re-attaching the same Discord channel 100
and the same Slack channel C1 are both rejected with no insert and no
event. -/
theorem C3_witness :
    discordAddIntegration dbC3w 100 "#gen".data 901 5 3 = ⟨dbC3w, [], .alreadyBound⟩ ∧
    slackAttach dbC3w true "T1".data "C1".data "#gen".data 5 3 =
      ⟨dbC3w, [], .alreadyBound⟩ :=
  C3_duplicate_target_only dbC3w 100 "#gen".data 901 5 3 "T1".data "C1".data
    "#gen".data 5 3 (by decide) (by decide)

/-- Concrete database for C4: one Discord integration, id 1, still
unauthorized. -/
def dbC4 : DB :=
  ⟨[⟨1, "#g".data⟩], [⟨1, 1, "discord".data, "100".data, "900".data, false, 0⟩]⟩

/-- C4 counterexample: the Discord add_integration confirmation handler
runs to completion on integration 1 (it sends the confirmation notice),
yet the stored record still has `is_authorized = false` — the claim says
the handler flips it to true. -/
theorem C4_counterexample :
    discordAddIntegrationConfirm dbC4 1 = .ok (dbC4, some ⟨"100".data, "#g".data⟩) ∧
    dbC4.integrations.map IntegrationRec.is_authorized = [false] :=
  ⟨rfl, by decide⟩

/-- C4 (amended): the add_integration confirmation handlers never touch
the store: whenever a handler completes, the database is exactly the one
it started from (in particular `is_authorized` keeps its prior value — the
flip is performed outside this codebase), and handling the same
confirmation a second time returns the identical result, creating no
record. -/
theorem C4_confirm_no_flip (db : DB) (iid : Nat) :
    (∀ r, discordAddIntegrationConfirm db iid = .ok r →
      r.1 = db ∧ discordAddIntegrationConfirm r.1 iid = .ok r) ∧
    (∀ r, slackAddIntegrationConfirm db iid = .ok r →
      r.1 = db ∧ slackAddIntegrationConfirm r.1 iid = .ok r) := by
  constructor
  · intro r h
    have hr1 : r.1 = db := by
      unfold discordAddIntegrationConfirm at h
      split at h
      · exact absurd h (by simp)
      · split at h
        · rw [← Except.ok.inj h]
        · split at h
          · exact absurd h (by simp)
          · rw [← Except.ok.inj h]
    exact ⟨hr1, by rw [hr1]; exact h⟩
  · intro r h
    have hr1 : r.1 = db := by
      unfold slackAddIntegrationConfirm at h
      split at h
      · exact absurd h (by simp)
      · split at h
        · rw [← Except.ok.inj h]
        · split at h
          · exact absurd h (by simp)
          · rw [← Except.ok.inj h]
    exact ⟨hr1, by rw [hr1]; exact h⟩

/-- Witness for C4 (amended) on the concrete confirmation of integration
1: the store comes back unchanged and a second handling gives the same
result. -/
theorem C4_witness :
    (dbC4, some (⟨"100".data, "#g".data⟩ : PlatformNotice)).1 = dbC4 ∧
    discordAddIntegrationConfirm dbC4 1 = .ok (dbC4, some ⟨"100".data, "#g".data⟩) := by
  have h : discordAddIntegrationConfirm dbC4 1 =
      .ok (dbC4, some ⟨"100".data, "#g".data⟩) := rfl
  have h2 := ((C4_confirm_no_flip dbC4 1).1 _ h).1
  exact ⟨h2, h⟩

/-- C6 counterexample: the inbound Slack substitution rewrites
`<http://a|click>` to `http://a` — the part *before* the pipe (group 1 of
`<(.+?)(\|.+)?>`) — not to the label `click` the claim promises. -/
theorem C6_counterexample :
    slackLinkSub "<http://a|click>".data = "http://a".data ∧
    slackLinkSub "<http://a|click>".data ≠ "click".data := by
  decide

/-- C6 (amended): inbound normalization strips the wrapper of
`<url|label>` but keeps the url part and drops the label: a message
containing one wrapped link becomes `pre ++ url ++ post`. -/
theorem C6_link_unwrap (pre url label post : Str)
    (hpre : '<' ∉ pre) (hurl : url ≠ [])
    (hu : ∀ c ∈ url, c ≠ '\n' ∧ c ≠ '|' ∧ c ≠ '>')
    (hlabel : label ≠ []) (hl : ∀ c ∈ label, c ≠ '\n') (hlgt : '>' ∉ label)
    (hpost : '>' ∉ post) (hpost2 : '<' ∉ post) :
    slackLinkSub (pre ++ ('<' :: (url ++ '|' :: label ++ '>' :: post))) =
      pre ++ url ++ post := by
  rw [slackLinkSub_wrap hpre hurl hu hlabel hl hlgt hpost,
    slackLinkSub_id_no_lt hpost2]

/-- Witness for C6 (amended) on the concrete message
`see <http://a|click> now`. -/
theorem C6_witness :
    slackLinkSub ("see ".data ++
        ('<' :: ("http://a".data ++ '|' :: "click".data ++ '>' :: " now".data))) =
      "see ".data ++ "http://a".data ++ " now".data :=
  C6_link_unwrap "see ".data "http://a".data "click".data " now".data
    (by decide) (by decide) (by decide) (by decide) (by decide) (by decide)
    (by decide) (by decide)

/-- Application and connection used by the C7 counterexample. -/
def appC7 : AppRec :=
  ⟨"a1".data, "k".data, "appa".data, "AppA".data, ["general".data]⟩

/-- C7 counterexample: an application sends a message via the gateway
(code `sent`, published to both buses); a *second* connection bound to
the same application, authenticated and authorized for the recipient
channel, receives nothing from the listener — the claim says connections
of the same application also observe the event. -/
theorem C7_counterexample :
    (send_message appC7 "bob".data "general".data "hi".data).2 = .sent ∧
    (⟨some appC7, ["general".data]⟩ : WsConn).channels.contains
      (lcStr "general".data) = true ∧
    routeRedisListener [⟨some appC7, ["general".data]⟩]
      ⟨appSender "bob".data appC7.slug, "general".data, "hi".data⟩ = [] := by
  decide

/-- C7 (amended): a successful gateway sendMessage publishes the tagged
event to both `to-ika` and `from-ika`; the listener then delivers it to
exactly those authenticated connections whose application differs from
the origin application and whose channel set contains the lowercased
recipient — every connection of the *sending* application, wherever it
is, is skipped. -/
theorem C7_gateway_fanout (app : AppRec) (sender target message : Str)
    (conn : WsConn) (a2 : AppRec) (ev : ChatEvent)
    (hauth : app.channels.any (fun ch => lcStr ch == lcStr target) = true)
    (hs : '/' ∉ sender) (hg : '/' ∉ app.slug) :
    send_message app sender target message =
      ([("to-ika".data, ⟨appSender sender app.slug, target, message⟩),
        ("from-ika".data, ⟨appSender sender app.slug, target, message⟩)], .sent) ∧
    chatOrigin (appSender sender app.slug) = app.slug ∧
    (conn.app = none → gatewayDeliver ev conn = none) ∧
    (conn.app = some a2 → a2.slug = chatOrigin ev.sender →
      gatewayDeliver ev conn = none) ∧
    (conn.app = some a2 → a2.slug ≠ chatOrigin ev.sender →
      conn.channels.contains (lcStr ev.recipient) = true →
      gatewayDeliver ev conn = some
        ⟨chatOrigin ev.sender, chatDisplaySender ev.sender,
          ev.recipient, ev.message⟩) ∧
    routeRedisListener [conn] ev =
      ((gatewayDeliver ev conn).map (fun pl => (0, pl))).toList := by
  refine ⟨?_, chatOrigin_appSender hs hg, ?_, ?_, ?_, ?_⟩
  · simp [send_message, hauth]
  · intro h; simp [gatewayDeliver, h]
  · intro h heq; simp [gatewayDeliver, h, heq]
  · intro h hne hch
    have hmem : lcStr ev.recipient ∈ conn.channels := by simpa using hch
    simp [gatewayDeliver, h, hne, hmem]
  · cases hgd : gatewayDeliver ev conn <;> simp [routeRedisListener, hgd]

/-- Witness for C7 (amended): the concrete send of `hi` to `general` and
the delivery decision for a connection of a different application. -/
theorem C7_witness :
    send_message appC7 "bob".data "general".data "hi".data =
      ([("to-ika".data, ⟨appSender "bob".data appC7.slug, "general".data, "hi".data⟩),
        ("from-ika".data, ⟨appSender "bob".data appC7.slug, "general".data, "hi".data⟩)],
        .sent) ∧
    chatOrigin (appSender "bob".data appC7.slug) = appC7.slug := by
  have h := C7_gateway_fanout appC7 "bob".data "general".data "hi".data
    ⟨none, []⟩ appC7 ⟨[], [], []⟩ (by decide) (by decide) (by decide)
  exact ⟨h.1, h.2.1⟩

/-- C8 counterexample: Discord's outbound substitution replaces the
member name `bob` inside the word `bigbob:` — an occurrence with no word
boundary on the left — turning `bigbob: hi` into `big<@!1> hi`, while the
claim allows replacement only at word-boundary occurrences. -/
theorem C8_counterexample :
    discordSpecialize [⟨1, "bob".data⟩] "bigbob: hi".data = "big<@!1> hi".data ∧
    "big<@!1> hi".data ≠ "bigbob: hi".data := by
  decide

/-- C8 (amended): the outbound mention rules are case-sensitive but not
word-boundary matches.  Discord replaces any substring occurrence of the
display name followed by `:`/`,`/space (the name and the punctuation are
consumed).  Slack additionally requires start-of-text or a literal space
on the left, and that space is consumed by the replacement as well. -/
theorem C8_mention_match (name repl pre post : Str) (p : Char)
    (hp : mentionPunct p = true)
    (hpre : ∀ i < pre.length,
      matchNamePunct name ((pre ++ (name ++ p :: post)).drop i) = none)
    (hhead : matchNamePunct name (' ' :: (name ++ p :: post)) = none) :
    discordMentionSub name repl (pre ++ (name ++ p :: post)) =
      pre ++ repl ++ discordMentionSub name repl post ∧
    slackMentionSub name repl (' ' :: (name ++ p :: post)) =
      repl ++ slackMentionGo name repl post := by
  constructor
  · rw [discordMentionSub_append_no_match hpre]
    have hm := @matchNamePunct_head name post p hp
    cases hshape : name ++ p :: post with
    | nil => exact absurd hshape (by cases name <;> simp)
    | cons c rest =>
      rw [hshape] at hm
      rw [discordMentionSub_match hm]
      simp
  · unfold slackMentionSub
    rw [hhead]
    exact slackMentionGo_space_match (matchNamePunct_head hp)

/-- Witness for C8 (amended): the member name `bob` with replacement
`<@!1>` inside `bigbob: hi` (Discord, mid-word) and ` bob, hi` (Slack,
after a space). -/
theorem C8_witness :
    discordMentionSub "bob".data "<@!1>".data
        ("big".data ++ ("bob".data ++ ':' :: " hi".data)) =
      "big".data ++ "<@!1>".data ++
        discordMentionSub "bob".data "<@!1>".data " hi".data ∧
    slackMentionSub "bob".data "<@U1>".data
        (' ' :: ("bob".data ++ ',' :: " hi".data)) =
      "<@U1>".data ++ slackMentionGo "bob".data "<@U1>".data " hi".data := by
  constructor
  · exact (C8_mention_match "bob".data "<@!1>".data "big".data " hi".data ':'
      (by decide) (by decide) (by decide)).1
  · exact (C8_mention_match "bob".data "<@U1>".data "big".data " hi".data ','
      (by decide) (by decide) (by decide)).2
